import Mathlib

/-!
Verification of `src/j_dataprep/landcover.py` (SOLWEIG_SOLFD).

Shallow embedding notes.

* numpy 2-D arrays all share the DTM shape inside `convert_to_raster`; we model
  an array as a total function `Nat → Nat → Int` (row, column) and state the
  claims on in-bounds indices.  `np.where(mask, a, v)` is pointwise and is
  embedded pointwise.
* `rasterio.features.geometry_mask(geoms, invert=False, ...)` returns a boolean
  array that is `True` outside every geometry and `False` on covered pixels.
  A shapely geometry is abstracted by its pixel coverage (`Cover`), which is
  exactly the information `geometry_mask` consumes; `shapely.geometry.shape`
  can raise on a malformed geometry mapping, which we model with a `malformed`
  flag and an `Except` result.
* Python exceptions are modelled with `Except String`; `print` logging is
  modelled by returning the list of emitted notes.
-/

/-- Pixel coverage of one geometry over the grid: `true` iff the pixel is
covered by the geometry (the complement of `geometry_mask` of a singleton). -/
abbrev Cover := Nat → Nat → Bool

/-- A boolean array over the grid (`numpy` boolean mask). -/
abbrev Mask := Nat → Nat → Bool

/-- An integer raster over the grid (`numpy` integer array). -/
abbrev Grid := Nat → Nat → Int

/-- `np.where(m, a, v)`: keep `a` where `m` is true, else the scalar `v`. -/
def np_where (m : Mask) (a : Grid) (v : Int) : Grid :=
  fun i j => if m i j then a i j else v

/-- `rasterio.features.geometry_mask(geoms, invert=False, out_shape=...)`:
`True` outside all geometries, `False` on pixels covered by some geometry. -/
def geometry_mask (geoms : List Cover) : Mask :=
  fun i j => !(geoms.any (fun g => g i j))

namespace LandCover

/-- One GeoJSON-like feature as consumed by `LandCover.convert_to_raster`:
its geometry (abstracted to pixel coverage), the optional `landuse` code in
its properties (`properties.get('landuse', None)`), and whether
`shapely.geometry.shape` raises on its geometry mapping. -/
structure Feature where
  cover : Cover
  landuse : Option Int := none
  malformed : Bool := false

/-- `shapely.geometry.shape(feature['geometry'])`: yields the geometry
(coverage abstraction) or raises on a malformed mapping. -/
def shapeE (f : Feature) : Except String Cover :=
  if f.malformed then .error "shape: malformed geometry" else .ok f.cover

/-- One iteration of the terrain loop of `convert_to_raster` (lines 301-306):
`geom = shape(...)` first (it may raise), then if the feature carries a
`landuse` code, `array = np.where(geometry_mask([geom]), array, landuse)`. -/
def terrain_step (a : Grid) (ter : Feature) : Except String Grid :=
  match shapeE ter with
  | .error e => .error e
  | .ok geom =>
    match ter.landuse with
    | some landuse => .ok (np_where (geometry_mask [geom]) a landuse)
    | none => .ok a

/-- One iteration of the road loop of `convert_to_raster` (lines 308-313);
its body is identical to the terrain loop's. -/
def road_step (a : Grid) (road : Feature) : Except String Grid :=
  match shapeE road with
  | .error e => .error e
  | .ok geom =>
    match road.landuse with
    | some landuse => .ok (np_where (geometry_mask [geom]) a landuse)
    | none => .ok a

/-- The note printed when the water feature list is empty (line 319). -/
def water_note : String :=
  "No valid water geometries found. Skipping water rasterization."

/-- The note printed when the building feature list is empty (line 329). -/
def building_note : String :=
  "No valid building geometries found. Skipping building rasterization."

/-- The water block of `convert_to_raster` (lines 315-323), applied to the
already-`shape`d water geometries: on an empty list print the note and leave
the array as is; otherwise rasterize all water geometries with code 7 and
remember the mask.  Returns (array, stored mask, emitted notes). -/
def water_stage (geoms : List Cover) (a : Grid) :
    Grid × Option Mask × List String :=
  if geoms.isEmpty then (a, none, [water_note])
  else
    let m := geometry_mask geoms
    (np_where m a 7, some m, [])

/-- The building block of `convert_to_raster` (lines 327-333), code 2. -/
def building_stage (geoms : List Cover) (a : Grid) :
    Grid × Option Mask × List String :=
  if geoms.isEmpty then (a, none, [building_note])
  else
    let m := geometry_mask geoms
    (np_where m a 2, some m, [])

/-- The values produced by one `convert_to_raster` call: the returned array,
the `self.landcover_withoutbuild` snapshot taken between the water and the
building block, the stored `self.water_mask` / `self.building_mask`, and the
notes printed along the way. -/
structure RasterOutput where
  array : Grid
  landcover_withoutbuild : Grid
  water_mask : Option Mask
  building_mask : Option Mask
  log : List String

/-- `LandCover.convert_to_raster` (lines 286-336): fill the array with
-9999, rasterize the terrain features, then the roads, then all water
geometries with code 7, snapshot `landcover_withoutbuild`, then all building
geometries with code 2.  Any exception raised by `shape` aborts the whole
call (there is no `try`/`except` in the source). -/
def convert_to_raster (terrains roads water buildings : List Feature) :
    Except String RasterOutput :=
  let array : Grid := fun _ _ => (-9999 : Int)
  match terrains.foldlM terrain_step array with
  | .error e => .error e
  | .ok array =>
  match roads.foldlM road_step array with
  | .error e => .error e
  | .ok array =>
  match water.mapM shapeE with
  | .error e => .error e
  | .ok water_geometries =>
    let ws := water_stage water_geometries array
    let landcover_withoutbuild := ws.1
    match buildings.mapM shapeE with
    | .error e => .error e
    | .ok building_geometries =>
      let bs := building_stage building_geometries landcover_withoutbuild
      .ok { array := bs.1
            landcover_withoutbuild := landcover_withoutbuild
            water_mask := ws.2.1
            building_mask := bs.2.1
            log := ws.2.2 ++ bs.2.2 }

/-- The "later feature wins" accumulator: fold the features left to right,
replacing the accumulator by the feature's code whenever the feature carries
a code and covers pixel `(i, j)`. -/
def lastCoverAux (feats : List Feature) (acc : Option Int) (i j : Nat) :
    Option Int :=
  feats.foldl
    (fun acc f =>
      match f.landuse with
      | some c => if f.cover i j then some c else acc
      | none => acc)
    acc

/-- The code of the last feature in list order that covers pixel `(i, j)`
and carries a `landuse` code (the within-layer "later feature wins" value). -/
def lastCover (feats : List Feature) (i j : Nat) : Option Int :=
  lastCoverAux feats none i j

end LandCover

section RasterLemmas

open LandCover

/-- On a well-formed feature list, `mapM shapeE` succeeds with the covers. -/
theorem mapM_shapeE_ok (fs : List Feature) (h : ∀ f ∈ fs, f.malformed = false) :
    fs.mapM shapeE = .ok (fs.map Feature.cover) := by
  induction fs with
  | nil => rfl
  | cons f rest ih =>
    have hf : f.malformed = false := h f (List.mem_cons_self f rest)
    have hrest : ∀ g ∈ rest, g.malformed = false :=
      fun g hg => h g (List.mem_cons_of_mem f hg)
    rw [List.mapM_cons, show shapeE f = .ok f.cover by simp [shapeE, hf],
        ih hrest]
    rfl

theorem lastCoverAux_cons (f : Feature) (rest : List Feature)
    (acc : Option Int) (i j : Nat) :
    lastCoverAux (f :: rest) acc i j
      = lastCoverAux rest
          (match f.landuse with
           | some c => if f.cover i j then some c else acc
           | none => acc) i j := rfl

/-- Seeding the `lastCover` fold with `acc` only matters when no feature
covers the pixel with a code. -/
theorem lastCoverAux_init (feats : List Feature) (acc : Option Int)
    (i j : Nat) :
    lastCoverAux feats acc i j
    = match lastCover feats i j with
      | some c => some c
      | none => acc := by
  induction feats generalizing acc with
  | nil => cases acc <;> rfl
  | cons f rest ih =>
    rw [show lastCover (f :: rest) i j = lastCoverAux (f :: rest) none i j
          from rfl,
        lastCoverAux_cons, lastCoverAux_cons]
    cases hl : f.landuse with
    | none =>
      rw [ih, ih]
      cases hrc : lastCover rest i j <;> rfl
    | some c =>
      rw [ih, ih]
      cases hrc : lastCover rest i j
      · cases hc : f.cover i j <;> rfl
      · rfl

/-- Cell value after the terrain (equally: road) loop: the last covering
coded feature wins; a cell covered by no coded feature keeps its value. -/
theorem foldlM_terrain_step_cell (feats : List Feature) (a : Grid)
    (h : ∀ f ∈ feats, f.malformed = false) (i j : Nat) :
    (feats.foldlM terrain_step a).map (fun g => g i j)
      = .ok ((lastCover feats i j).getD (a i j)) := by
  induction feats generalizing a with
  | nil => rfl
  | cons f rest ih =>
    have hf : f.malformed = false := h f (List.mem_cons_self f rest)
    have hrest : ∀ g ∈ rest, g.malformed = false :=
      fun g hg => h g (List.mem_cons_of_mem f hg)
    cases hl : f.landuse with
    | none =>
      have hstep : terrain_step a f = .ok a := by
        simp [terrain_step, shapeE, hf, hl]
      have hcons : (f :: rest).foldlM terrain_step a
          = rest.foldlM terrain_step a := by
        rw [List.foldlM_cons, hstep]
        rfl
      rw [hcons, ih a hrest]
      have h2 : lastCover (f :: rest) i j = lastCover rest i j := by
        show lastCoverAux (f :: rest) none i j = _
        rw [lastCoverAux_cons, hl]
        rfl
      rw [h2]

    | some c =>
      have hstep : terrain_step a f
          = .ok (np_where (geometry_mask [f.cover]) a c) := by
        simp [terrain_step, shapeE, hf, hl]
      have hcons : (f :: rest).foldlM terrain_step a
          = rest.foldlM terrain_step (np_where (geometry_mask [f.cover]) a c) := by
        rw [List.foldlM_cons, hstep]
        rfl
      rw [hcons, ih _ hrest]
      have hcell : np_where (geometry_mask [f.cover]) a c i j
          = if f.cover i j then c else a i j := by
        by_cases hc : f.cover i j <;> simp [np_where, geometry_mask, hc]
      rw [hcell]
      have hlast : lastCover (f :: rest) i j
          = match lastCover rest i j with
            | some d => some d
            | none => if f.cover i j then some c else none := by
        show lastCoverAux (f :: rest) none i j = _
        rw [lastCoverAux_cons, hl, lastCoverAux_init]
      rw [hlast]
      by_cases hc : f.cover i j <;> cases hrc : lastCover rest i j <;>
        simp [hc, hrc]

/-- The road loop computes the same function as the terrain loop. -/
theorem road_step_eq_terrain_step : road_step = terrain_step := rfl

/-- Whether a call completed without raising. -/
def exOk {ε α : Type} (e : Except ε α) : Bool :=
  match e with
  | .ok _ => true
  | .error _ => false

theorem exOk_map {ε α β : Type} (f : α → β) (e : Except ε α) :
    exOk (e.map f) = exOk e := by
  cases e <;> rfl

/-- The terrain/road loop succeeds on a well-formed feature list, and the
resulting array is described cell-wise by `lastCover`. -/
theorem foldlM_terrain_step_ok (feats : List Feature) (a : Grid)
    (h : ∀ f ∈ feats, f.malformed = false) :
    ∃ a1, feats.foldlM terrain_step a = .ok a1
      ∧ ∀ i j, a1 i j = (lastCover feats i j).getD (a i j) := by
  cases he : feats.foldlM terrain_step a with
  | error e =>
    have hcell := foldlM_terrain_step_cell feats a h 0 0
    rw [he] at hcell
    exact absurd hcell (by simp [Except.map])
  | ok a1 =>
    refine ⟨a1, rfl, fun i j => ?_⟩
    have hcell := foldlM_terrain_step_cell feats a h i j
    rw [he] at hcell
    simpa [Except.map] using hcell

/-- A malformed feature anywhere in the list aborts the terrain/road loop. -/
theorem foldlM_terrain_step_err (feats : List Feature) (a : Grid)
    (h : ∃ f ∈ feats, f.malformed = true) :
    exOk (feats.foldlM terrain_step a) = false := by
  induction feats generalizing a with
  | nil => simp at h
  | cons f rest ih =>
    rcases h with ⟨g, hg, hmal⟩
    rcases List.mem_cons.mp hg with rfl | hgrest
    · have hstep : terrain_step a g = .error "shape: malformed geometry" := by
        simp [terrain_step, shapeE, hmal]
      rw [List.foldlM_cons, hstep]
      rfl
    · cases hfm : f.malformed with
      | true =>
        have hstep : terrain_step a f = .error "shape: malformed geometry" := by
          simp [terrain_step, shapeE, hfm]
        rw [List.foldlM_cons, hstep]
        rfl
      | false =>
        cases hl : f.landuse with
        | none =>
          have hstep : terrain_step a f = .ok a := by
            simp [terrain_step, shapeE, hfm, hl]
          rw [List.foldlM_cons, hstep,
              show ((Except.ok a : Except String Grid) >>= fun x =>
                  rest.foldlM terrain_step x) = rest.foldlM terrain_step a
                from rfl]
          exact ih a ⟨g, hgrest, hmal⟩
        | some c =>
          have hstep : terrain_step a f
              = .ok (np_where (geometry_mask [f.cover]) a c) := by
            simp [terrain_step, shapeE, hfm, hl]
          rw [List.foldlM_cons, hstep,
              show ((Except.ok (np_where (geometry_mask [f.cover]) a c) :
                    Except String Grid) >>= fun x =>
                  rest.foldlM terrain_step x)
                = rest.foldlM terrain_step (np_where (geometry_mask [f.cover]) a c)
                from rfl]
          exact ih _ ⟨g, hgrest, hmal⟩

/-- A malformed feature anywhere in the list aborts `mapM shapeE`. -/
theorem mapM_shapeE_err (fs : List Feature)
    (h : ∃ f ∈ fs, f.malformed = true) :
    exOk (fs.mapM shapeE) = false := by
  induction fs with
  | nil => simp at h
  | cons f rest ih =>
    rcases h with ⟨g, hg, hmal⟩
    rcases List.mem_cons.mp hg with rfl | hgrest
    · rw [List.mapM_cons, show shapeE g = .error "shape: malformed geometry"
            by simp [shapeE, hmal]]
      rfl
    · cases hfm : f.malformed with
      | true =>
        rw [List.mapM_cons, show shapeE f = .error "shape: malformed geometry"
              by simp [shapeE, hfm]]
        rfl
      | false =>
        rw [List.mapM_cons, show shapeE f = .ok f.cover by simp [shapeE, hfm]]
        have hrec := ih ⟨g, hgrest, hmal⟩
        cases hre : rest.mapM shapeE with
        | error e => rfl
        | ok gs => rw [hre] at hrec; exact absurd hrec (by simp [exOk])

/-- Cell value of `np.where(geometry_mask(gs), a, v)`: covered cells get `v`. -/
theorem np_where_all_cell (gs : List Cover) (a : Grid) (v : Int) (i j : Nat) :
    np_where (geometry_mask gs) a v i j
      = if gs.any (fun g => g i j) then v else a i j := by
  cases hany : gs.any (fun g => g i j) <;>
    simp [np_where, geometry_mask, hany]

theorem any_map_cover (fs : List Feature) (i j : Nat) :
    (List.map Feature.cover fs).any (fun g => g i j)
      = fs.any (fun f => f.cover i j) := by
  induction fs with
  | nil => rfl
  | cons f rest ih =>
    show (f.cover i j || (List.map Feature.cover rest).any (fun g => g i j))
        = (f.cover i j || rest.any (fun f => f.cover i j))
    rw [ih]

/-- Cell value after the water block: water-covered cells get 7. -/
theorem water_stage_cell (gs : List Cover) (a : Grid) (i j : Nat) :
    (water_stage gs a).1 i j = if gs.any (fun g => g i j) then 7 else a i j := by
  cases gs with
  | nil => rfl
  | cons g rest =>
    show np_where (geometry_mask (g :: rest)) a 7 i j = _
    rw [np_where_all_cell]

/-- Cell value after the building block: building-covered cells get 2. -/
theorem building_stage_cell (gs : List Cover) (a : Grid) (i j : Nat) :
    (building_stage gs a).1 i j
      = if gs.any (fun g => g i j) then 2 else a i j := by
  cases gs with
  | nil => rfl
  | cons g rest =>
    show np_where (geometry_mask (g :: rest)) a 2 i j = _
    rw [np_where_all_cell]

theorem water_stage_log (gs : List Cover) (a : Grid) :
    (water_stage gs a).2.2 = if gs.isEmpty then [water_note] else [] := by
  cases gs <;> rfl

theorem building_stage_log (gs : List Cover) (a : Grid) :
    (building_stage gs a).2.2 = if gs.isEmpty then [building_note] else [] := by
  cases gs <;> rfl

/-- Master characterization of a successful `convert_to_raster` call: the
returned snapshot values cell by cell, the stored masks, and the notes. -/
theorem convert_to_raster_ok (t r w b : List Feature)
    (ht : ∀ f ∈ t, f.malformed = false)
    (hr : ∀ f ∈ r, f.malformed = false)
    (hw : ∀ f ∈ w, f.malformed = false)
    (hb : ∀ f ∈ b, f.malformed = false) :
    ∃ out, convert_to_raster t r w b = .ok out
      ∧ (∀ i j, out.landcover_withoutbuild i j =
           if w.any (fun f => f.cover i j) then 7
           else (lastCover r i j).getD ((lastCover t i j).getD (-9999)))
      ∧ (∀ i j, out.array i j =
           if b.any (fun f => f.cover i j) then 2
           else out.landcover_withoutbuild i j)
      ∧ out.log = (if w.isEmpty then [water_note] else [])
          ++ (if b.isEmpty then [building_note] else []) := by
  obtain ⟨a1, he1, hc1⟩ :=
    foldlM_terrain_step_ok t (fun _ _ => (-9999 : Int)) ht
  obtain ⟨a2, he2, hc2⟩ := foldlM_terrain_step_ok r a1 hr
  have hwm := mapM_shapeE_ok w hw
  have hbm := mapM_shapeE_ok b hb
  have he2' : r.foldlM road_step a1 = .ok a2 := by
    rw [road_step_eq_terrain_step]; exact he2
  have hmapw : (List.map Feature.cover w).isEmpty = w.isEmpty := by
    cases w <;> rfl
  have hmapb : (List.map Feature.cover b).isEmpty = b.isEmpty := by
    cases b <;> rfl
  have ha2 : ∀ i j, a2 i j
      = (lastCover r i j).getD ((lastCover t i j).getD (-9999)) := by
    intro i j
    rw [hc2 i j, hc1 i j]
  simp only [convert_to_raster, he1, he2', hwm, hbm]
  refine ⟨_, rfl, fun i j => ?_, fun i j => ?_, ?_⟩
  · show (water_stage (List.map Feature.cover w) a2).1 i j = _
    rw [water_stage_cell, any_map_cover, ha2 i j]
  · show (building_stage (List.map Feature.cover b)
        ((water_stage (List.map Feature.cover w) a2).1)).1 i j
      = if b.any (fun f => f.cover i j) then 2
        else (water_stage (List.map Feature.cover w) a2).1 i j
    rw [building_stage_cell, any_map_cover]
  · show (water_stage (List.map Feature.cover w) a2).2.2
        ++ (building_stage (List.map Feature.cover b)
              ((water_stage (List.map Feature.cover w) a2).1)).2.2 = _
    rw [water_stage_log, building_stage_log, hmapw, hmapb]

end RasterLemmas

namespace LandCover

/-- Python `str.lower()`, modelled character-wise (extensionally the same
case mapping as `String.toLower`, written structurally so that it
computes). -/
def str_lower (s : String) : String := String.mk (s.data.map Char.toLower)

/-- The JSON code table: the two top-level keys "terrain" and "road", each a
mapping from type-name string to integer code (`landcover.json`). -/
structure LandcoverMapping where
  terrain : List (String × Int)
  road : List (String × Int)

/-- `LandCover.get_landcover_code` (lines 107-120):
`self.landcover_mapping.get(category, {}).get(land_type.lower(), -1)`. -/
def get_landcover_code (m : LandcoverMapping) (land_type : String)
    (isroad : Bool) : Int :=
  (((if isroad then m.road else m.terrain).lookup (str_lower land_type))).getD (-1)

/-- A raw terrain feature from the API: its `typelandgebruik` attribute and
its geometry (as pixel coverage). -/
structure RawTerrainFeature where
  typelandgebruik : String
  cover : Cover
  malformed : Bool := false

/-- The per-feature body of `LandCover.process_terrain_features`
(lines 191-204): look the lowercased type up in the "terrain" table with
default -1, and attach a `landuse` property only when the value is not -1. -/
def process_terrain_feature (mapping : List (String × Int))
    (ter : RawTerrainFeature) : Feature :=
  let landusetype := str_lower ter.typelandgebruik
  let landuse_value := (mapping.lookup landusetype).getD (-1)
  { cover := ter.cover
    malformed := ter.malformed
    landuse := if landuse_value ≠ -1 then some landuse_value else none }

/-- A raw road feature from the API: its `verhardingstype` attribute and its
geometry (as pixel coverage). -/
structure RawRoadFeature where
  verhardingstype : String
  cover : Cover
  malformed : Bool := false

/-- The per-feature body of `LandCover.process_road_features`
(lines 219-238): "verhard" takes the configured `main_road` code, any other
type is looked up in the "road" table with default -1; a `landuse` property
is attached only when the value is not -1. -/
def process_road_feature (main_road : Int) (mapping : List (String × Int))
    (road : RawRoadFeature) : Feature :=
  let verhardingstype := str_lower road.verhardingstype
  let landuse_value :=
    if verhardingstype = "verhard" then main_road
    else (mapping.lookup verhardingstype).getD (-1)
  { cover := road.cover
    malformed := road.malformed
    landuse := if landuse_value ≠ -1 then some landuse_value else none }

end LandCover

section RasterWitnessData

open LandCover

/-- A terrain feature covering every pixel, code 5. -/
def f_terrain5 : Feature := { cover := fun _ _ => true, landuse := some 5 }

/-- A road feature covering columns 0-4, code 1. -/
def f_road1 : Feature :=
  { cover := fun _ j => decide (j < 5), landuse := some 1 }

/-- A terrain feature covering every pixel, code 3 (overlap test). -/
def f_terrain3 : Feature := { cover := fun _ _ => true, landuse := some 3 }

/-- A water feature covering only pixel (2,2). -/
def f_water : Feature := { cover := fun i j => decide (i = 2 ∧ j = 2) }

/-- A building feature covering the 2x2 block at the origin. -/
def f_build : Feature := { cover := fun i j => decide (i ≤ 1 ∧ j ≤ 1) }

/-- A feature whose geometry mapping makes `shape` raise. -/
def f_malformed : Feature :=
  { cover := fun _ _ => true, landuse := some 5, malformed := true }

end RasterWitnessData

section RasterClaims

open LandCover

/-- C1 (overwrite law): processing the layers in the fixed order terrain,
road, water, building, a cell covered by a later layer's rasterization mask
ends with that later layer's code, regardless of the earlier layers'
contents at that cell: a building-covered cell ends at 2 whatever terrain,
roads and water hold there; a water-covered cell not covered by a building
ends at 7; a road-covered cell (last covering road feature carrying code
`c`) not covered by water or building ends at `c` whatever the terrain
layer holds. -/
theorem C1_overwrite_law (t r w b : List Feature) (i j : Nat)
    (ht : ∀ f ∈ t, f.malformed = false)
    (hr : ∀ f ∈ r, f.malformed = false)
    (hw : ∀ f ∈ w, f.malformed = false)
    (hb : ∀ f ∈ b, f.malformed = false) :
    ((∃ f ∈ b, f.cover i j = true) →
      (convert_to_raster t r w b).map (fun o => o.array i j) = .ok 2)
  ∧ ((∀ f ∈ b, f.cover i j = false) → (∃ f ∈ w, f.cover i j = true) →
      (convert_to_raster t r w b).map (fun o => o.array i j) = .ok 7)
  ∧ (∀ c : Int, (∀ f ∈ b, f.cover i j = false) →
      (∀ f ∈ w, f.cover i j = false) → lastCover r i j = some c →
      (convert_to_raster t r w b).map (fun o => o.array i j) = .ok c) := by
  obtain ⟨out, hok, hlwb, harr, hlog⟩ := convert_to_raster_ok t r w b ht hr hw hb
  rw [hok]
  refine ⟨?_, ?_, ?_⟩
  · rintro ⟨f, hf, hcov⟩
    have hany : b.any (fun f => f.cover i j) = true :=
      List.any_eq_true.mpr ⟨f, hf, hcov⟩
    simp [Except.map, harr i j, hany]
  · intro hnb hexw
    have hbany : b.any (fun f => f.cover i j) = false := by
      rw [List.any_eq_false]
      intro f hf
      simp [hnb f hf]
    rcases hexw with ⟨f, hf, hcov⟩
    have hwany : w.any (fun f => f.cover i j) = true :=
      List.any_eq_true.mpr ⟨f, hf, hcov⟩
    simp [Except.map, harr i j, hbany, hlwb i j, hwany]
  · intro c hnb hnw hlast
    have hbany : b.any (fun f => f.cover i j) = false := by
      rw [List.any_eq_false]
      intro f hf
      simp [hnb f hf]
    have hwany : w.any (fun f => f.cover i j) = false := by
      rw [List.any_eq_false]
      intro f hf
      simp [hnw f hf]
    simp [Except.map, harr i j, hbany, hlwb i j, hwany, hlast]

/-- C1 witness: with a full-extent terrain polygon (code 5), a left-half
road (code 1), water at (2,2) and a 2x2 building block at the origin, cell
(0,0) is 2, cell (2,2) is 7, and cell (3,3) is the road code 1. -/
theorem C1_overwrite_law_witness :
    (convert_to_raster [f_terrain5] [f_road1] [f_water] [f_build]).map
        (fun o => o.array 0 0) = .ok 2
  ∧ (convert_to_raster [f_terrain5] [f_road1] [f_water] [f_build]).map
        (fun o => o.array 2 2) = .ok 7
  ∧ (convert_to_raster [f_terrain5] [f_road1] [f_water] [f_build]).map
        (fun o => o.array 3 3) = .ok 1 := by
  have hmal : ∀ L : List Feature, L = [f_terrain5] ∨ L = [f_road1] ∨
      L = [f_water] ∨ L = [f_build] → ∀ f ∈ L, f.malformed = false := by
    rintro L (rfl | rfl | rfl | rfl) f hf <;>
      rw [List.mem_singleton.mp hf] <;> rfl
  refine ⟨?_, ?_, ?_⟩
  · exact (C1_overwrite_law [f_terrain5] [f_road1] [f_water] [f_build] 0 0
      (hmal _ (Or.inl rfl)) (hmal _ (Or.inr (Or.inl rfl)))
      (hmal _ (Or.inr (Or.inr (Or.inl rfl))))
      (hmal _ (Or.inr (Or.inr (Or.inr rfl))))).1
      ⟨f_build, List.mem_singleton.mpr rfl, rfl⟩
  · exact (C1_overwrite_law [f_terrain5] [f_road1] [f_water] [f_build] 2 2
      (hmal _ (Or.inl rfl)) (hmal _ (Or.inr (Or.inl rfl)))
      (hmal _ (Or.inr (Or.inr (Or.inl rfl))))
      (hmal _ (Or.inr (Or.inr (Or.inr rfl))))).2.1
      (fun f hf => by rw [List.mem_singleton.mp hf]; rfl)
      ⟨f_water, List.mem_singleton.mpr rfl, rfl⟩
  · exact (C1_overwrite_law [f_terrain5] [f_road1] [f_water] [f_build] 3 3
      (hmal _ (Or.inl rfl)) (hmal _ (Or.inr (Or.inl rfl)))
      (hmal _ (Or.inr (Or.inr (Or.inl rfl))))
      (hmal _ (Or.inr (Or.inr (Or.inr rfl))))).2.2 1
      (fun f hf => by rw [List.mem_singleton.mp hf]; rfl)
      (fun f hf => by rw [List.mem_singleton.mp hf]; rfl)
      rfl

/-- C2 (within-layer order): in the terrain loop and equally in the road
loop, the final value of a cell is the code of the feature appearing last
in the layer's feature list among those that cover the cell and carry a
code (so overlapping features of different codes resolve to the later-listed
one, and disjoint features each keep their own code whatever the order). -/
theorem C2_within_layer_order (feats : List Feature) (a : Grid) (i j : Nat)
    (h : ∀ f ∈ feats, f.malformed = false) :
    (feats.foldlM terrain_step a).map (fun g => g i j)
        = .ok ((lastCover feats i j).getD (a i j))
  ∧ (feats.foldlM road_step a).map (fun g => g i j)
        = .ok ((lastCover feats i j).getD (a i j)) := by
  refine ⟨foldlM_terrain_step_cell feats a h i j, ?_⟩
  rw [road_step_eq_terrain_step]
  exact foldlM_terrain_step_cell feats a h i j

/-- C2 witness: two full-extent terrain polygons with codes 3 then 5: the
later-listed one (code 5) wins at (0,0); swapping the list order yields 3. -/
theorem C2_within_layer_order_witness :
    ([f_terrain3, f_terrain5].foldlM terrain_step
        (fun _ _ => (-9999 : Int))).map (fun g => g 0 0) = .ok 5
  ∧ ([f_terrain5, f_terrain3].foldlM terrain_step
        (fun _ _ => (-9999 : Int))).map (fun g => g 0 0) = .ok 3 := by
  have h1 : ∀ f ∈ [f_terrain3, f_terrain5], f.malformed = false := by
    rintro f hf
    rcases List.mem_cons.mp hf with rfl | hf
    · rfl
    · rw [List.mem_singleton.mp hf]; rfl
  have h2 : ∀ f ∈ [f_terrain5, f_terrain3], f.malformed = false := by
    rintro f hf
    rcases List.mem_cons.mp hf with rfl | hf
    · rfl
    · rw [List.mem_singleton.mp hf]; rfl
  exact ⟨(C2_within_layer_order [f_terrain3, f_terrain5] _ 0 0 h1).1,
         (C2_within_layer_order [f_terrain5, f_terrain3] _ 0 0 h2).1⟩

/-- C3 (single layer): composing with one layer alone (the other three
empty) yields, at every cell, the layer's code on its covered cells and
NODATA = -9999 elsewhere, because the grid is initialized to -9999
everywhere first (terrain and road carry per-feature codes, water writes 7,
building writes 2). -/
theorem C3_single_layer (L : List Feature) (i j : Nat)
    (h : ∀ f ∈ L, f.malformed = false) :
    ((convert_to_raster L [] [] []).map (fun o => o.array i j)
        = .ok ((lastCover L i j).getD (-9999)))
  ∧ ((convert_to_raster [] L [] []).map (fun o => o.array i j)
        = .ok ((lastCover L i j).getD (-9999)))
  ∧ ((convert_to_raster [] [] L []).map (fun o => o.array i j)
        = .ok (if L.any (fun f => f.cover i j) then 7 else -9999))
  ∧ ((convert_to_raster [] [] [] L).map (fun o => o.array i j)
        = .ok (if L.any (fun f => f.cover i j) then 2 else -9999)) := by
  have hnil : ∀ f ∈ ([] : List Feature), f.malformed = false :=
    fun f hf => absurd hf (List.not_mem_nil f)
  refine ⟨?_, ?_, ?_, ?_⟩
  · obtain ⟨out, hok, hlwb, harr, hlog⟩ :=
      convert_to_raster_ok L [] [] [] h hnil hnil hnil
    rw [hok]
    simp [Except.map, harr i j, hlwb i j, lastCover, lastCoverAux]
  · obtain ⟨out, hok, hlwb, harr, hlog⟩ :=
      convert_to_raster_ok [] L [] [] hnil h hnil hnil
    rw [hok]
    simp [Except.map, harr i j, hlwb i j, lastCover, lastCoverAux]
  · obtain ⟨out, hok, hlwb, harr, hlog⟩ :=
      convert_to_raster_ok [] [] L [] hnil hnil h hnil
    rw [hok]
    simp [Except.map, harr i j, hlwb i j, lastCover, lastCoverAux]
  · obtain ⟨out, hok, hlwb, harr, hlog⟩ :=
      convert_to_raster_ok [] [] [] L hnil hnil hnil h
    rw [hok]
    simp [Except.map, harr i j, hlwb i j, lastCover, lastCoverAux]

/-- C3 witness: a single full-extent layer at cell (0,0): terrain-only
gives 5, road-only gives 5, water-only gives 7, building-only gives 2; and
at a covered-by-nothing cell the water-only grid holds -9999. -/
theorem C3_single_layer_witness :
    ((convert_to_raster [f_terrain5] [] [] []).map (fun o => o.array 0 0)
        = .ok 5)
  ∧ ((convert_to_raster [] [f_terrain5] [] []).map (fun o => o.array 0 0)
        = .ok 5)
  ∧ ((convert_to_raster [] [] [f_water] []).map (fun o => o.array 2 2)
        = .ok 7)
  ∧ ((convert_to_raster [] [] [f_water] []).map (fun o => o.array 0 0)
        = .ok (-9999))
  ∧ ((convert_to_raster [] [] [] [f_build]).map (fun o => o.array 0 0)
        = .ok 2) := by
  have h5 : ∀ f ∈ [f_terrain5], f.malformed = false :=
    fun f hf => by rw [List.mem_singleton.mp hf]; rfl
  have hwat : ∀ f ∈ [f_water], f.malformed = false :=
    fun f hf => by rw [List.mem_singleton.mp hf]; rfl
  have hbd : ∀ f ∈ [f_build], f.malformed = false :=
    fun f hf => by rw [List.mem_singleton.mp hf]; rfl
  exact ⟨(C3_single_layer [f_terrain5] 0 0 h5).1,
         (C3_single_layer [f_terrain5] 0 0 h5).2.1,
         (C3_single_layer [f_water] 2 2 hwat).2.2.1,
         (C3_single_layer [f_water] 0 0 hwat).2.2.1,
         (C3_single_layer [f_build] 0 0 hbd).2.2.2⟩

end RasterClaims

section ErrorClaims

open LandCover

/-- C5 counterexample: a layer containing a malformed polygon followed by a
perfectly processable one makes the whole composition call raise — the
malformed feature is not skipped, the rest of the layer is not processed,
and no grid is produced, contrary to the claimed per-feature fail-soft
behaviour. -/
theorem C5_counterexample :
    exOk (convert_to_raster [f_malformed, f_terrain5] [] [] []) = false := rfl

/-- C5 amended: `convert_to_raster` performs no coordinate-reference
validation at all — a call whose features are all processable always
succeeds, whatever reference frames they were expressed in (no fatal
ValidationError path exists) — and a malformed polygon anywhere in any
layer aborts the whole call instead of being skipped with a warning. -/
theorem C5_amended (t r w b : List Feature) :
    ((∀ f ∈ t ++ r ++ w ++ b, f.malformed = false) →
      exOk (convert_to_raster t r w b) = true)
  ∧ ((∃ f ∈ t ++ r ++ w ++ b, f.malformed = true) →
      exOk (convert_to_raster t r w b) = false) := by
  constructor
  · intro h
    have ht : ∀ f ∈ t, f.malformed = false :=
      fun f hf => h f (by simp [hf])
    have hr : ∀ f ∈ r, f.malformed = false :=
      fun f hf => h f (by simp [hf])
    have hw : ∀ f ∈ w, f.malformed = false :=
      fun f hf => h f (by simp [hf])
    have hb : ∀ f ∈ b, f.malformed = false :=
      fun f hf => h f (by simp [hf])
    obtain ⟨out, hok, -, -, -⟩ := convert_to_raster_ok t r w b ht hr hw hb
    rw [hok]
    rfl
  · rintro ⟨f, hf, hmal⟩
    have hsplit : f ∈ t ∨ f ∈ r ∨ f ∈ w ∨ f ∈ b := by
      simpa [List.mem_append, or_assoc] using hf
    rcases hsplit with hft | hfr | hfw | hfb
    · -- the malformed feature is a terrain feature
      have herr := foldlM_terrain_step_err t (fun _ _ => (-9999 : Int))
        ⟨f, hft, hmal⟩
      cases he : t.foldlM terrain_step (fun _ _ => (-9999 : Int)) with
      | error e => simp only [convert_to_raster, he]; rfl
      | ok a1 => rw [he] at herr; exact absurd herr (by simp [exOk])
    · -- road feature: the call dies by the road loop at the latest
      cases he : t.foldlM terrain_step (fun _ _ => (-9999 : Int)) with
      | error e => simp only [convert_to_raster, he]; rfl
      | ok a1 =>
        have herr := foldlM_terrain_step_err r a1 ⟨f, hfr, hmal⟩
        rw [← road_step_eq_terrain_step] at herr
        cases he2 : r.foldlM road_step a1 with
        | error e => simp only [convert_to_raster, he, he2]; rfl
        | ok a2 => rw [he2] at herr; exact absurd herr (by simp [exOk])
    · -- water feature
      cases he : t.foldlM terrain_step (fun _ _ => (-9999 : Int)) with
      | error e => simp only [convert_to_raster, he]; rfl
      | ok a1 =>
        cases he2 : r.foldlM road_step a1 with
        | error e => simp only [convert_to_raster, he, he2]; rfl
        | ok a2 =>
          have herr := mapM_shapeE_err w ⟨f, hfw, hmal⟩
          cases he3 : w.mapM shapeE with
          | error e => simp only [convert_to_raster, he, he2, he3]; rfl
          | ok gs => rw [he3] at herr; exact absurd herr (by simp [exOk])
    · -- building feature
      cases he : t.foldlM terrain_step (fun _ _ => (-9999 : Int)) with
      | error e => simp only [convert_to_raster, he]; rfl
      | ok a1 =>
        cases he2 : r.foldlM road_step a1 with
        | error e => simp only [convert_to_raster, he, he2]; rfl
        | ok a2 =>
          cases he3 : w.mapM shapeE with
          | error e => simp only [convert_to_raster, he, he2, he3]; rfl
          | ok gs =>
            have herr := mapM_shapeE_err b ⟨f, hfb, hmal⟩
            cases he4 : b.mapM shapeE with
            | error e => simp only [convert_to_raster, he, he2, he3, he4]; rfl
            | ok gs2 => rw [he4] at herr; exact absurd herr (by simp [exOk])

/-- C5 amended witness: one well-formed terrain feature composes fine; one
malformed terrain feature aborts the call. -/
theorem C5_amended_witness :
    exOk (convert_to_raster [f_terrain5] [] [] []) = true
  ∧ exOk (convert_to_raster [f_malformed] [] [] []) = false := by
  constructor
  · exact (C5_amended [f_terrain5] [] [] []).1
      (fun f hf => by
        simp only [List.append_nil] at hf
        rw [List.mem_singleton.mp hf]; rfl)
  · exact (C5_amended [f_malformed] [] [] []).2
      ⟨f_malformed, by simp, rfl⟩

/-- C6 counterexample: composing with all four layers empty prints exactly
the water note and the building note — the empty terrain and road layers
emit no informational note at all, so the log has 2 entries, not one per
empty layer (4). -/
theorem C6_counterexample :
    (convert_to_raster [] [] [] []).map (fun o => o.log)
        = .ok [water_note, building_note]
  ∧ (convert_to_raster [] [] [] []).map (fun o => o.log.length) ≠ .ok 4 := by
  constructor
  · rfl
  · intro hlen
    rw [show (convert_to_raster [] [] [] []).map (fun o => o.log.length)
          = Except.ok 2 from rfl] at hlen
    injection hlen with h2
    exact absurd h2 (by decide)

/-- C6 amended: an empty layer is skipped without error and leaves the grid
unchanged for that layer — the terrain and road loops are identity on an
empty list, the water and building blocks return the array untouched — but
an informational note is emitted only by the water and building blocks, not
by the terrain or road loops; with all layers empty every cell stays at
-9999 and the call still succeeds. -/
theorem C6_amended (a : Grid) (i j : Nat) :
    ([] : List Feature).foldlM terrain_step a = .ok a
  ∧ ([] : List Feature).foldlM road_step a = .ok a
  ∧ water_stage [] a = (a, none, [water_note])
  ∧ building_stage [] a = (a, none, [building_note])
  ∧ (convert_to_raster [] [] [] []).map (fun o => o.array i j) = .ok (-9999)
  := ⟨rfl, rfl, rfl, rfl, rfl⟩

/-- C8: a terrain feature whose `typelandgebruik` misses the terrain code
table, or a road feature that is not "verhard" and whose `verhardingstype`
misses the road code table, yields the sentinel -1 from
`get_landcover_code`; -1 is distinct from NODATA and from every valid code
0..8; such a feature is built without a `landuse` property and therefore
leaves the array untouched when the terrain or road loop processes it. -/
theorem C8_no_classification (m : LandcoverMapping) (main_road : Int)
    (ter : RawTerrainFeature) (road : RawRoadFeature)
    (hter : m.terrain.lookup (str_lower ter.typelandgebruik) = none)
    (hroad : m.road.lookup (str_lower road.verhardingstype) = none)
    (hnothard : str_lower road.verhardingstype ≠ "verhard")
    (hmt : ter.malformed = false) (hmr : road.malformed = false) :
    get_landcover_code m ter.typelandgebruik false = -1
  ∧ get_landcover_code m road.verhardingstype true = -1
  ∧ ((-1 : Int) ≠ -9999 ∧ ∀ c : Int, 0 ≤ c → c ≤ 8 → (-1 : Int) ≠ c)
  ∧ (process_terrain_feature m.terrain ter).landuse = none
  ∧ (process_road_feature main_road m.road road).landuse = none
  ∧ (∀ a : Grid, terrain_step a (process_terrain_feature m.terrain ter) = .ok a)
  ∧ (∀ a : Grid, road_step a (process_road_feature main_road m.road road) = .ok a)
  := by
  have hterl : (process_terrain_feature m.terrain ter).landuse = none := by
    simp [process_terrain_feature, hter]
  have hroadl : (process_road_feature main_road m.road road).landuse = none := by
    simp [process_road_feature, hroad, hnothard]
  refine ⟨?_, ?_, ⟨by decide, ?_⟩, hterl, hroadl, ?_, ?_⟩
  · simp [get_landcover_code, hter]
  · simp [get_landcover_code, hroad]
  · intro c hc0 hc8 hceq
    rw [← hceq] at hc0
    exact absurd hc0 (by decide)
  · intro a
    simp [terrain_step, shapeE, process_terrain_feature, hmt, hter]
  · intro a
    simp [road_step, shapeE, process_road_feature, hmr, hroad, hnothard]

/-- C8 witness: the table maps only "grasland" and "onverhard"; the types
"moeras" (terrain) and "asfalt" (road) miss it, are coded -1, and leave a
grid cell value unchanged. -/
theorem C8_no_classification_witness :
    get_landcover_code ⟨[("grasland", 5)], [("onverhard", 3)]⟩ "moeras" false
        = -1
  ∧ (process_terrain_feature [("grasland", 5)]
        ⟨"moeras", fun _ _ => true, false⟩).landuse = none
  ∧ terrain_step (fun _ _ => (42 : Int))
        (process_terrain_feature [("grasland", 5)]
          ⟨"moeras", fun _ _ => true, false⟩)
      = .ok (fun _ _ => (42 : Int)) := by
  have h := C8_no_classification ⟨[("grasland", 5)], [("onverhard", 3)]⟩ 0
    ⟨"moeras", fun _ _ => true, false⟩ ⟨"asfalt", fun _ _ => true, false⟩
    rfl rfl (by decide) rfl rfl
  exact ⟨h.1, h.2.2.2.1, h.2.2.2.2.2.1 (fun _ _ => (42 : Int))⟩

end ErrorClaims

namespace LandCover

/-- The mutable numpy-array state of a `LandCover` object: a heap of array
objects plus, for each of the three array attributes, the heap address of
the object it currently refers to (`none` when the attribute holds the
python value `None` instead of an array).  Python attribute assignment
copies the reference; an in-place numpy write mutates the heap cell, so
every attribute aliasing that object observes the change. -/
structure LCState where
  heap : List Grid
  arrayRef : Nat
  ogRef : Nat
  lwbRef : Option Nat

/-- The array object `self.array` refers to. -/
def array_of (s : LCState) : Grid := s.heap.getD s.arrayRef (fun _ _ => 0)

/-- The array object `self.og_landcover` refers to. -/
def og_landcover_of (s : LCState) : Grid := s.heap.getD s.ogRef (fun _ _ => 0)

/-- The array object `self.landcover_withoutbuild` refers to, or `none`
when the attribute holds `None`. -/
def landcover_withoutbuild_of (s : LCState) : Option Grid :=
  s.lwbRef.map (fun r => s.heap.getD r (fun _ _ => 0))

/-- Reference layout after `__init__` (lines 71-73): line 71 binds
`self.array` to the object returned by `convert_to_raster`, line 72
(`self.og_landcover = self.array`) copies that reference — the same
object, not a copy — and line 73 (`self.landcover_withoutbuild = None`)
then overwrites the snapshot reference that `convert_to_raster` had stored
at line 325, so after `__init__` that attribute is `None` and only the one
returned array object is referenced, by both `array` and `og_landcover`. -/
def lc_init (out : RasterOutput) : LCState :=
  { heap := [out.array], arrayRef := 0, ogRef := 0, lwbRef := none }

/-- `LandCover.update_landcover` (lines 398-410):
`self.array[to_update] = land_type` is an in-place numpy write — it mutates
the array object `self.array` refers to, on the heap. -/
def update_landcover (s : LCState) (land_type : Int) (input_array : Grid) :
    LCState :=
  let a := s.heap.getD s.arrayRef (fun _ _ => 0)
  let a2 : Grid := fun i j => if input_array i j > -1 then land_type else a i j
  { s with heap := s.heap.set s.arrayRef a2 }

/-- `LandCover.update_build_landcover` (lines 380-396): rasterize the new
building geometries and rebind `self.array = np.where(building_mask,
self.array, 2)` — a fresh array object is allocated and only the
`self.array` reference moves. -/
def update_build_landcover (s : LCState) (new_building_data : List Feature) :
    Except String LCState :=
  match new_building_data.mapM shapeE with
  | .error e => .error e
  | .ok building_geometries =>
    if building_geometries.isEmpty then .ok s
    else
      let building_mask := geometry_mask building_geometries
      let a2 := np_where building_mask (s.heap.getD s.arrayRef (fun _ _ => 0)) 2
      .ok { s with heap := s.heap ++ [a2], arrayRef := s.heap.length }

end LandCover

section FrameClaims

open LandCover

/-- C7: the claim fails — `self.og_landcover = self.array` (line 72)
aliases the very object `update_landcover` later mutates in place, so the
"original unmodified landcover array" changes.  Concretely: after
composing one full-extent terrain polygon (code 5) and one building block,
the `og_landcover` and `array` references coincide, cell (0,0) of
`og_landcover` is 2, and one `update_landcover(3, zeros)` call flips that
snapshot cell to 3.  The other snapshot named by the claim is not retained
at all: line 73 (`self.landcover_withoutbuild = None`) overwrites, right
after `convert_to_raster` returns, the reference the call had stored at
line 325, so after `__init__` the attribute is `None`.
(`update_build_landcover`, by contrast, only rebinds `self.array`,
leaving `og_landcover`'s object intact.) -/
theorem C7_snapshot_mutation_bug :
    ∃ out, convert_to_raster [f_terrain5] [] [] [f_build] = .ok out
      ∧ (lc_init out).ogRef = (lc_init out).arrayRef
      ∧ landcover_withoutbuild_of (lc_init out) = none
      ∧ og_landcover_of (lc_init out) 0 0 = 2
      ∧ og_landcover_of
          (update_landcover (lc_init out) 3 (fun _ _ => 0)) 0 0 = 3 := by
  exact ⟨_, rfl, rfl, rfl, rfl, rfl⟩

end FrameClaims

namespace Buildings

/-- A building dictionary as built by `insert_user_buildings`: a geometry
and a `parcel_id` string.  The geometry type is abstract: the matching
logic only ever hands geometries to the spatial predicates. -/
structure Building (G : Type) where
  geometry : G
  parcel_id : String

/-- The candidate loop of `insert_user_buildings` (lines 637-643): walk the
rtree candidates in returned order, look each highest building up by index,
and return the parcel id of the first one whose geometry intersects, or
contains/surrounds (`within`), the footprint geometry; when no candidate
satisfies the relation, keep the footprint's own id `fid`.  An out-of-range
index would raise (python `IndexError`); the rtree only returns indices it
was built with. -/
def match_loop {G : Type} (inter wthn : G → G → Bool)
    (highest : List (Building G)) (fg : G) (fid : String) :
    List Nat → Except String String
  | [] => .ok fid
  | idx :: rest =>
    match highest.get? idx with
    | none => .error "IndexError"
    | some hb =>
      if inter fg hb.geometry || wthn fg hb.geometry then .ok hb.parcel_id
      else match_loop inter wthn highest fg fid rest

/-- The footprint pass of `insert_user_buildings` (lines 631-643): for each
footprint building in input order, query the rtree with its geometry and
overwrite its parcel id with the loop's answer; the geometry is untouched.
`inter`/`wthn` are the shapely predicates and `query` is
`rtree_index.intersection` (bounding-box candidates in index-iteration
order), all abstracted as oracles. -/
def match_footprints {G : Type} (inter wthn : G → G → Bool)
    (query : G → List Nat) (highest : List (Building G))
    (footprints : List (Building G)) : Except String (List (Building G)) :=
  footprints.mapM (fun fb =>
    (match_loop inter wthn highest fb.geometry fb.parcel_id
        (query fb.geometry)).map
      (fun pid => { geometry := fb.geometry, parcel_id := pid }))

/-- Whether candidate index `idx` satisfies the spatial relation against
footprint geometry `fg`. -/
def sat {G : Type} (inter wthn : G → G → Bool)
    (highest : List (Building G)) (fg : G) (idx : Nat) : Bool :=
  match highest.get? idx with
  | some hb => inter fg hb.geometry || wthn fg hb.geometry
  | none => false

end Buildings

section MatcherClaims

open Buildings

/-- The candidate loop returns the first satisfying candidate's id (found
via `find?`), or the footprint's own id when none satisfies. -/
theorem match_loop_spec {G : Type} (inter wthn : G → G → Bool)
    (highest : List (Building G)) (fg : G) (fid : String)
    (cands : List Nat) (hvalid : ∀ idx ∈ cands, idx < highest.length) :
    match_loop inter wthn highest fg fid cands
      = .ok (match cands.find? (sat inter wthn highest fg) with
             | some idx => ((highest.get? idx).map Building.parcel_id).getD fid
             | none => fid) := by
  induction cands with
  | nil => rfl
  | cons idx rest ih =>
    have hlt : idx < highest.length :=
      hvalid idx (List.mem_cons_self idx rest)
    obtain ⟨hb, hhb⟩ : ∃ hb, highest.get? idx = some hb := by
      cases hg : highest.get? idx with
      | none => exact absurd (List.get?_eq_none.mp hg) (by omega)
      | some hb => exact ⟨hb, rfl⟩
    have hrest : ∀ k ∈ rest, k < highest.length :=
      fun k hk => hvalid k (List.mem_cons_of_mem idx hk)
    show (match highest.get? idx with
          | none => Except.error "IndexError"
          | some hb =>
            if inter fg hb.geometry || wthn fg hb.geometry then
              Except.ok hb.parcel_id
            else match_loop inter wthn highest fg fid rest) = _
    rw [hhb]
    cases hsat : (inter fg hb.geometry || wthn fg hb.geometry) with
    | true =>
      have hsatIdx : sat inter wthn highest fg idx = true := by
        unfold sat; rw [hhb]; exact hsat
      rw [List.find?_cons_of_pos _ hsatIdx]
      show (if (inter fg hb.geometry || wthn fg hb.geometry) = true
            then Except.ok hb.parcel_id
            else match_loop inter wthn highest fg fid rest)
          = Except.ok (((highest.get? idx).map Building.parcel_id).getD fid)
      rw [if_pos hsat, hhb]
      rfl
    | false =>
      have hsatIdx : sat inter wthn highest fg idx = false := by
        unfold sat; rw [hhb]; exact hsat
      rw [List.find?_cons_of_neg _ (by simp [hsatIdx])]
      show (if (inter fg hb.geometry || wthn fg hb.geometry) = true
            then Except.ok hb.parcel_id
            else match_loop inter wthn highest fg fid rest)
          = Except.ok (match rest.find? (sat inter wthn highest fg) with
                       | some idx =>
                         ((highest.get? idx).map Building.parcel_id).getD fid
                       | none => fid)
      rw [if_neg (by simp [hsat]), ih hrest]

/-- C4: the matcher maps each footprint building, in order, to a building
with the identical geometry whose parcel id is the id of the first
candidate returned by the bounding-box query that intersects or is within
the footprint geometry; when no candidate satisfies the relation the
footprint keeps its own originally generated id.  No geometry is modified:
the output list is exactly this per-footprint rewrite. -/
theorem C4_matcher_first_candidate {G : Type} (inter wthn : G → G → Bool)
    (query : G → List Nat) (highest footprints : List (Building G))
    (hq : ∀ g : G, ∀ idx ∈ query g, idx < highest.length) :
    match_footprints inter wthn query highest footprints
      = .ok (footprints.map (fun fb =>
          { geometry := fb.geometry
            parcel_id :=
              match (query fb.geometry).find?
                  (sat inter wthn highest fb.geometry) with
              | some idx =>
                ((highest.get? idx).map Building.parcel_id).getD fb.parcel_id
              | none => fb.parcel_id })) := by
  induction footprints with
  | nil => rfl
  | cons fb rest ih =>
    rw [show match_footprints inter wthn query highest (fb :: rest)
          = (fb :: rest).mapM (fun fb =>
              (match_loop inter wthn highest fb.geometry fb.parcel_id
                  (query fb.geometry)).map
                (fun pid => { geometry := fb.geometry, parcel_id := pid }))
          from rfl,
        List.mapM_cons,
        match_loop_spec inter wthn highest fb.geometry fb.parcel_id
          (query fb.geometry) (hq fb.geometry)]
    rw [show match_footprints inter wthn query highest rest
          = rest.mapM (fun fb =>
              (match_loop inter wthn highest fb.geometry fb.parcel_id
                  (query fb.geometry)).map
                (fun pid => { geometry := fb.geometry, parcel_id := pid }))
          from rfl] at ih
    rw [ih]
    rfl

/-- C4 witness: highest blobs h0, h1, h2 with ids "h0","h1","h2"; footprint
f0 (geometry 20) intersects h1 first among the returned candidates [0,1,2]
and adopts "h1"; footprint f1 (geometry 21) satisfies no relation and keeps
its own id "f1"; geometries are unchanged. -/
theorem C4_matcher_first_candidate_witness :
    match_footprints (G := Nat) (fun a b => decide (a = 20 ∧ b = 11))
        (fun _ _ => false) (fun _ => [0, 1, 2])
        [⟨10, "h0"⟩, ⟨11, "h1"⟩, ⟨12, "h2"⟩]
        [⟨20, "f0"⟩, ⟨21, "f1"⟩]
      = .ok [⟨20, "h1"⟩, ⟨21, "f1"⟩] := by
  exact C4_matcher_first_candidate (fun a b => decide (a = 20 ∧ b = 11))
    (fun _ _ => false) (fun _ => [0, 1, 2])
    [⟨10, "h0"⟩, ⟨11, "h1"⟩, ⟨12, "h2"⟩] [⟨20, "f0"⟩, ⟨21, "f1"⟩]
    (by intro g idx hidx; fin_cases hidx <;> decide)

end MatcherClaims

/-- 4-adjacency of two grid cells: same row and adjacent columns, or same
column and adjacent rows (shared edge, not diagonal). -/
def adj4 (p q : Nat × Nat) : Prop :=
  (p.1 = q.1 ∧ (p.2 + 1 = q.2 ∨ q.2 + 1 = p.2))
  ∨ (p.2 = q.2 ∧ (p.1 + 1 = q.1 ∨ q.1 + 1 = p.1))

instance (p q : Nat × Nat) : Decidable (adj4 p q) := by
  unfold adj4; infer_instance

/-- The pixel graph underlying `scipy.ndimage.label` with its default
structuring element (line 606): vertices are the grid cells, edges join
4-adjacent cells that are both true in the mask.  Modelled from the
library's documented behavior: `label` assigns two true cells the same
label exactly when they are joined by a chain of such edges. -/
def gridGraph (rows cols : Nat) (m : Nat → Nat → Bool) :
    SimpleGraph (Fin rows × Fin cols) where
  Adj p q := m p.1 p.2 = true ∧ m q.1 q.2 = true
      ∧ adj4 (p.1.val, p.2.val) (q.1.val, q.2.val)
  symm := by
    rintro p q ⟨h1, h2, h3⟩
    refine ⟨h2, h1, ?_⟩
    rcases h3 with ⟨he, hor⟩ | ⟨he, hor⟩
    · exact Or.inl ⟨he.symm, hor.symm⟩
    · exact Or.inr ⟨he.symm, hor.symm⟩
  loopless := by
    rintro p ⟨-, -, h3⟩
    rcases h3 with ⟨-, hor⟩ | ⟨-, hor⟩ <;> omega

instance (rows cols : Nat) (m : Nat → Nat → Bool) :
    DecidableRel (gridGraph rows cols m).Adj := fun p q =>
  decidable_of_iff
    (m p.1 p.2 = true ∧ m q.1 q.2 = true
      ∧ adj4 (p.1.val, p.2.val) (q.1.val, q.2.val)) Iff.rfl

/-- All cells of the grid in row-major order (`scipy.ndimage.label` scan
order). -/
def cellList (rows cols : Nat) : List (Fin rows × Fin cols) :=
  (List.finRange rows).flatMap (fun i => (List.finRange cols).map (fun j => (i, j)))

/-- The cells labeled like `p`: every cell reachable from `p` through
4-adjacent true cells, in row-major order. -/
def componentOf (rows cols : Nat) (m : Nat → Nat → Bool)
    (p : Fin rows × Fin cols) : List (Fin rows × Fin cols) :=
  (cellList rows cols).filter
    (fun q => decide ((gridGraph rows cols m).Reachable p q))

/-- The labeled regions of the mask, one list of cells per region, in
order of each region's first cell: a true cell heads its own component
exactly when it is the first cell of that region in scan order. -/
def components (rows cols : Nat) (m : Nat → Nat → Bool) :
    List (List (Fin rows × Fin cols)) :=
  ((cellList rows cols).filter (fun p => m p.1 p.2
      && decide ((componentOf rows cols m p).head? = some p))).map
    (componentOf rows cols m)

section ComponentLemmas

theorem mem_cellList (rows cols : Nat) (p : Fin rows × Fin cols) :
    p ∈ cellList rows cols := by
  unfold cellList
  rw [List.mem_flatMap]
  exact ⟨p.1, List.mem_finRange p.1,
    List.mem_map.mpr ⟨p.2, List.mem_finRange p.2, rfl⟩⟩

theorem mem_componentOf {rows cols : Nat} {m : Nat → Nat → Bool}
    {p q : Fin rows × Fin cols} :
    q ∈ componentOf rows cols m p ↔ (gridGraph rows cols m).Reachable p q := by
  unfold componentOf
  rw [List.mem_filter]
  constructor
  · rintro ⟨-, h⟩
    exact of_decide_eq_true h
  · intro h
    exact ⟨mem_cellList rows cols q, decide_eq_true h⟩

theorem walk_mask {rows cols : Nat} {m : Nat → Nat → Bool} :
    ∀ {p q : Fin rows × Fin cols}, (gridGraph rows cols m).Walk p q →
      m p.1 p.2 = true → m q.1 q.2 = true := by
  intro p q w
  induction w with
  | nil => exact id
  | cons h w ih => exact fun _ => ih h.2.1

theorem reachable_mask {rows cols : Nat} {m : Nat → Nat → Bool}
    {p q : Fin rows × Fin cols}
    (h : (gridGraph rows cols m).Reachable p q) (hp : m p.1 p.2 = true) :
    m q.1 q.2 = true := by
  obtain ⟨w⟩ := h
  exact walk_mask w hp

theorem componentOf_congr {rows cols : Nat} {m : Nat → Nat → Bool}
    {p p2 : Fin rows × Fin cols}
    (h : (gridGraph rows cols m).Reachable p p2) :
    componentOf rows cols m p = componentOf rows cols m p2 := by
  unfold componentOf
  apply List.filter_congr
  intro q hq
  rw [decide_eq_decide]
  exact ⟨fun hr => h.symm.trans hr, fun hr => h.trans hr⟩

theorem self_mem_componentOf {rows cols : Nat} {m : Nat → Nat → Bool}
    (p : Fin rows × Fin cols) : p ∈ componentOf rows cols m p :=
  mem_componentOf.mpr (SimpleGraph.Reachable.refl p)

/-- Every true cell's component is listed among the components. -/
theorem componentOf_mem_components {rows cols : Nat} {m : Nat → Nat → Bool}
    {p : Fin rows × Fin cols} (hp : m p.1 p.2 = true) :
    componentOf rows cols m p ∈ components rows cols m := by
  obtain ⟨r, rest, hl⟩ : ∃ r rest, componentOf rows cols m p = r :: rest := by
    cases hl : componentOf rows cols m p with
    | nil =>
      have := self_mem_componentOf (m := m) p
      rw [hl] at this
      cases this
    | cons r rest => exact ⟨r, rest, rfl⟩
  have hrmem : r ∈ componentOf rows cols m p := by
    rw [hl]
    exact List.mem_cons_self r rest
  have hpr : (gridGraph rows cols m).Reachable p r := mem_componentOf.mp hrmem
  have hcongr : componentOf rows cols m p = componentOf rows cols m r :=
    componentOf_congr hpr
  have hmr : m r.1 r.2 = true := reachable_mask hpr hp
  have hhead : (componentOf rows cols m r).head? = some r := by
    rw [← hcongr, hl]
    rfl
  unfold components
  refine List.mem_map.mpr ⟨r, List.mem_filter.mpr ⟨mem_cellList rows cols r, ?_⟩,
    hcongr.symm⟩
  rw [Bool.and_eq_true]
  exact ⟨hmr, decide_eq_true hhead⟩

/-- Every listed component is the component of its representative. -/
theorem components_mem_inv {rows cols : Nat} {m : Nat → Nat → Bool}
    {comp : List (Fin rows × Fin cols)} (h : comp ∈ components rows cols m) :
    ∃ r, m r.1 r.2 = true ∧ comp = componentOf rows cols m r := by
  obtain ⟨r, hr, hcomp⟩ := List.mem_map.mp h
  refine ⟨r, ?_, hcomp.symm⟩
  have := (List.mem_filter.mp hr).2
  rw [Bool.and_eq_true] at this
  exact this.1

end ComponentLemmas

namespace Buildings

/-- The cross-call state of a `Buildings` object that
`insert_user_buildings` / `remove_user_buildings` /
`retrieve_user_buildings` touch. -/
structure BuildingsState (G : Type) where
  user_buildings : List (Building G) := []
  user_buildings_higher : List (Building G) := []
  removed_user_buildings : List String := []
  is3D : Bool := false

/-- `Buildings.insert_user_buildings` (lines 601-647): record `is3D`, reset
`removed_user_buildings` and `user_buildings_higher` to empty, label the
4-connected regions of `highest_array > 0` and build one identified blob
per region (fresh uuid-style ids supplied by `hid`); when a footprint
array is given, likewise extract footprint blobs (ids from `fid`), build
the rtree over the highest blobs and run the matching pass, storing the
matched footprints as `user_buildings` and the highest blobs as
`user_buildings_higher`; otherwise the highest blobs themselves become
`user_buildings`.  `vectorize` stands for `rasterio.features.shapes` +
`shapely.geometry.shape` turning one labeled region into one polygon. -/
def insert_user_buildings {G : Type} (rows cols : Nat)
    (inter wthn : G → G → Bool) (query : G → List Nat)
    (vectorize : List (Fin rows × Fin cols) → G)
    (hid fid : Nat → String)
    (s : BuildingsState G) (highest_array : Grid)
    (footprint_array : Option Grid) : Except String (BuildingsState G) :=
  let s1 : BuildingsState G :=
    { s with is3D := footprint_array.isSome
             removed_user_buildings := []
             user_buildings_higher := ([] : List (Building G)) }
  let comps := components rows cols (fun i j => decide (highest_array i j > 0))
  let highest_buildings :=
    comps.enum.map (fun kc => Building.mk (vectorize kc.2) (hid kc.1))
  match footprint_array with
  | some fp =>
    let fcomps := components rows cols (fun i j => decide (fp i j > 0))
    let footprint_buildings :=
      fcomps.enum.map (fun kc => Building.mk (vectorize kc.2) (fid kc.1))
    match match_footprints inter wthn query highest_buildings
        footprint_buildings with
    | .error e => .error e
    | .ok matched =>
      .ok { s1 with user_buildings := matched
                    user_buildings_higher := highest_buildings }
  | none => .ok { s1 with user_buildings := highest_buildings }

/-- `Buildings.remove_user_buildings` (lines 649-650): append the id. -/
def remove_user_buildings {G : Type} (s : BuildingsState G)
    (identification : String) : BuildingsState G :=
  { s with removed_user_buildings :=
      s.removed_user_buildings ++ [identification] }

/-- `Buildings.retrieve_user_buildings` (lines 652-653): drop the first
occurrence of the id. -/
def retrieve_user_buildings {G : Type} (s : BuildingsState G)
    (identification : String) : BuildingsState G :=
  { s with removed_user_buildings :=
      s.removed_user_buildings.erase identification }

end Buildings

section ExtractorClaims

/-- A test raster with two vertical strips of positive cells (columns 0 and
2), i.e. two disjoint blobs. -/
def ha23 : Grid := fun _ j => if j = 0 ∨ j = 2 then 1 else 0

/-- C9: the extractor labels exactly the maximal 4-connected regions of
true cells of the mask: every true cell lies in exactly one listed region,
every region's cells are true and mutually reachable through 4-adjacent
true cells, any true cell 4-adjacent to a region's cell belongs to that
region, and an all-false mask yields no regions; `insert_user_buildings`
on a highest array (mask `> 0`) produces exactly one identified blob per
region — an empty region list gives an empty blob list and no error. -/
theorem C9_extractor_components (rows cols : Nat) (m : Nat → Nat → Bool) :
    (∀ p : Fin rows × Fin cols, m p.1 p.2 = true →
       ∃ comp ∈ components rows cols m, p ∈ comp)
  ∧ (∀ c1 ∈ components rows cols m, ∀ c2 ∈ components rows cols m,
       ∀ p : Fin rows × Fin cols, p ∈ c1 → p ∈ c2 → c1 = c2)
  ∧ (∀ comp ∈ components rows cols m, ∀ p ∈ comp, m p.1 p.2 = true)
  ∧ (∀ comp ∈ components rows cols m, ∀ p ∈ comp, ∀ q ∈ comp,
       (gridGraph rows cols m).Reachable p q)
  ∧ (∀ comp ∈ components rows cols m, ∀ p ∈ comp,
       ∀ q : Fin rows × Fin cols, m q.1 q.2 = true →
         adj4 (p.1.val, p.2.val) (q.1.val, q.2.val) → q ∈ comp)
  ∧ ((∀ p : Fin rows × Fin cols, m p.1 p.2 = false) →
       components rows cols m = [])
  ∧ (∀ (G : Type) (inter wthn : G → G → Bool) (query : G → List Nat)
       (vectorize : List (Fin rows × Fin cols) → G)
       (hid fid : Nat → String)
       (s : Buildings.BuildingsState G) (ha : Grid),
       m = (fun i j => decide (ha i j > 0)) →
       Buildings.insert_user_buildings rows cols inter wthn query vectorize
           hid fid s ha none
         = .ok { s with
                 is3D := false
                 removed_user_buildings := []
                 user_buildings_higher := []
                 user_buildings :=
                   (components rows cols m).enum.map
                     (fun kc =>
                       Buildings.Building.mk (vectorize kc.2) (hid kc.1)) }) := by
  refine ⟨?_, ?_, ?_, ?_, ?_, ?_, ?_⟩
  · intro p hp
    exact ⟨componentOf rows cols m p, componentOf_mem_components hp,
      self_mem_componentOf p⟩
  · intro c1 h1 c2 h2 p hp1 hp2
    obtain ⟨r1, hmr1, rfl⟩ := components_mem_inv h1
    obtain ⟨r2, hmr2, rfl⟩ := components_mem_inv h2
    exact componentOf_congr
      ((mem_componentOf.mp hp1).trans (mem_componentOf.mp hp2).symm)
  · intro comp hc p hp
    obtain ⟨r, hmr, rfl⟩ := components_mem_inv hc
    exact reachable_mask (mem_componentOf.mp hp) hmr
  · intro comp hc p hp q hq
    obtain ⟨r, hmr, rfl⟩ := components_mem_inv hc
    exact (mem_componentOf.mp hp).symm.trans (mem_componentOf.mp hq)
  · intro comp hc p hp q hmq hadj
    obtain ⟨r, hmr, rfl⟩ := components_mem_inv hc
    have hmp : m p.1 p.2 = true :=
      reachable_mask (mem_componentOf.mp hp) hmr
    have hAdj : (gridGraph rows cols m).Adj p q := ⟨hmp, hmq, hadj⟩
    exact mem_componentOf.mpr ((mem_componentOf.mp hp).trans hAdj.reachable)
  · intro h
    unfold components
    rw [List.filter_eq_nil_iff.mpr (fun p _ => by rw [h p]; simp)]
    rfl
  · intro G inter wthn query vectorize hid fid s ha hm
    subst hm
    rfl

/-- C9 witness: the two-strip raster has a region holding cell (0,0); the
all-false mask yields no regions; extracting the two-strip raster with no
footprint array succeeds and returns exactly 2 identified blobs. -/
theorem C9_extractor_components_witness :
    (∃ comp ∈ components 2 3 (fun i j => decide (ha23 i j > 0)),
        ((0 : Fin 2), (0 : Fin 3)) ∈ comp)
  ∧ components 2 3 (fun _ _ => false) = []
  ∧ (∃ s2 : Buildings.BuildingsState (List (Fin 2 × Fin 3)),
      Buildings.insert_user_buildings 2 3 (fun _ _ => false)
          (fun _ _ => false) (fun _ => []) (fun c => c)
          (fun k => "h" ++ toString k) (fun k => "f" ++ toString k)
          {} ha23 none
        = .ok s2
      ∧ s2.user_buildings.length = 2) := by
  refine ⟨?_, ?_, ?_⟩
  · exact (C9_extractor_components 2 3 (fun i j => decide (ha23 i j > 0))).1
      ((0 : Fin 2), (0 : Fin 3)) (by decide)
  · exact (C9_extractor_components 2 3 (fun _ _ => false)).2.2.2.2.2.1
      (fun p => rfl)
  · have h := (C9_extractor_components 2 3
        (fun i j => decide (ha23 i j > 0))).2.2.2.2.2.2
      (List (Fin 2 × Fin 3)) (fun _ _ => false) (fun _ _ => false)
      (fun _ => []) (fun c => c) (fun k => "h" ++ toString k)
      (fun k => "f" ++ toString k) {} ha23 rfl
    exact ⟨_, h, by decide⟩

/-- C10: every `insert_user_buildings` call resets both
`removed_user_buildings` and `user_buildings_higher` to empty before
extracting, so building ids recorded by any earlier sequence of
`remove_user_buildings` calls are discarded: on any successful call the
removed list is empty, and in the no-footprint case the higher-blob list
stays empty as well. -/
theorem C10_insert_resets_removed {G : Type} (rows cols : Nat)
    (inter wthn : G → G → Bool) (query : G → List Nat)
    (vectorize : List (Fin rows × Fin cols) → G) (hid fid : Nat → String)
    (s : Buildings.BuildingsState G) (ids : List String) (ha : Grid)
    (fp : Option Grid) (s2 : Buildings.BuildingsState G)
    (h : Buildings.insert_user_buildings rows cols inter wthn query vectorize
        hid fid (ids.foldl Buildings.remove_user_buildings s) ha fp
      = .ok s2) :
    s2.removed_user_buildings = []
  ∧ (fp = none → s2.user_buildings_higher = []) := by
  cases fp with
  | none =>
    simp only [Buildings.insert_user_buildings] at h
    injection h with h2
    subst h2
    exact ⟨rfl, fun _ => rfl⟩
  | some fparr =>
    simp only [Buildings.insert_user_buildings] at h
    cases hmf : Buildings.match_footprints inter wthn query
        ((components rows cols
            (fun i j => decide (ha i j > 0))).enum.map
          (fun kc => Buildings.Building.mk (vectorize kc.2) (hid kc.1)))
        ((components rows cols
            (fun i j => decide (fparr i j > 0))).enum.map
          (fun kc => Buildings.Building.mk (vectorize kc.2) (fid kc.1))) with
    | error e =>
      rw [hmf] at h
      cases h
    | ok matched =>
      rw [hmf] at h
      injection h with h2
      subst h2
      exact ⟨rfl, fun heq => Option.noConfusion heq⟩

/-- C10 witness: after two `remove_user_buildings` calls, a re-extraction
on a 1x1 all-zero raster succeeds with both lists empty. -/
theorem C10_insert_resets_removed_witness :
    ∃ s2 : Buildings.BuildingsState Nat,
      Buildings.insert_user_buildings 1 1 (fun _ _ => false)
          (fun _ _ => false) (fun _ => []) (fun _ => 0) (fun _ => "h")
          (fun _ => "f")
          (List.foldl Buildings.remove_user_buildings
            ({} : Buildings.BuildingsState Nat) ["a", "b"])
          (fun _ _ => 0) none
        = .ok s2
      ∧ s2.removed_user_buildings = [] ∧ s2.user_buildings_higher = [] := by
  refine ⟨{ user_buildings := []
            user_buildings_higher := []
            removed_user_buildings := []
            is3D := false }, rfl, ?_, ?_⟩
  · exact (C10_insert_resets_removed 1 1 (fun _ _ => false) (fun _ _ => false)
      (fun _ => []) (fun _ => 0) (fun _ => "h") (fun _ => "f")
      {} ["a", "b"] (fun _ _ => 0) none _ rfl).1
  · exact (C10_insert_resets_removed 1 1 (fun _ _ => false) (fun _ _ => false)
      (fun _ => []) (fun _ => 0) (fun _ => "h") (fun _ => "f")
      {} ["a", "b"] (fun _ _ => 0) none _ rfl).2 rfl

end ExtractorClaims
